import Mathlib

/-
Verification of the ckb-bridge transfer subsystem.

Part 1 embeds, directly from src/src/subcommands/ckb_bridge/command.rs, the
status enums, the log loaders and the two transfer commands as they are
written (all step bodies in the source are stubs, so the commands reduce to
a match over the loaded status followed by a fixed success output).

Part 2 models, from the specification, the resumable transfer state machine
(transfer record, log store, per-direction transition tables, the shared
advance engine and its error taxonomy) that the source only sketches.
-/

/-- Status enum `ToCkbLogStatus` from command.rs (source→destination log). -/
inductive ToCkbLogStatus
  | UnKnow
  | Approved
  | Locked
  | ParseProof
  | WaitBlockSafe
  | Mint
  deriving DecidableEq, Repr

/-- Status enum `FromCkbLogStatus` from command.rs (destination→source log). -/
inductive FromCkbLogStatus
  | UnKnow
  | Burned
  | ParseProof
  | WaitBlockSafe
  | Mint
  deriving DecidableEq, Repr

/-- Struct `ToCkbLog` from command.rs: carries only a status. -/
structure ToCkbLog where
  status : ToCkbLogStatus
  deriving DecidableEq, Repr

/-- Struct `FromCkbLog` from command.rs: carries only a status. -/
structure FromCkbLog where
  status : FromCkbLogStatus
  deriving DecidableEq, Repr

/-- `load_to_ckb_log` from command.rs: always builds a log in status `UnKnow`. -/
def load_to_ckb_log : ToCkbLog :=
  { status := ToCkbLogStatus.UnKnow }

/-- `load_from_ckb_log` from command.rs: always builds a log in status `UnKnow`. -/
def load_from_ckb_log : FromCkbLog :=
  { status := FromCkbLogStatus.UnKnow }

/-- The fixed output string of `transfer_to_ckb` in command.rs. -/
def toCkbOutputMsg : String :=
  "finished to transfer erc20 to ckb."

/-- The fixed output string of `transfer_from_ckb` in command.rs. -/
def fromCkbOutputMsg : String :=
  "finished to transfer erc20 from ckb."

/-- Body of `transfer_to_ckb` from command.rs, parameterised by the loaded log:
the match over the status has an empty (TODO) body in every arm, and the
function then returns the fixed success output. -/
def transfer_to_ckb_at (log : ToCkbLog) : Except String String :=
  let _ := match log.status with
    | ToCkbLogStatus.UnKnow => ()
    | ToCkbLogStatus.Approved => ()
    | ToCkbLogStatus.Locked => ()
    | ToCkbLogStatus.ParseProof => ()
    | ToCkbLogStatus.WaitBlockSafe => ()
    | ToCkbLogStatus.Mint => ()
  Except.ok toCkbOutputMsg

/-- `transfer_to_ckb` from command.rs: loads the log and runs the match. -/
def transfer_to_ckb : Except String String :=
  transfer_to_ckb_at load_to_ckb_log

/-- Body of `transfer_from_ckb` from command.rs, parameterised by the loaded
log: every match arm is an empty stub, then the fixed output is returned. -/
def transfer_from_ckb_at (log : FromCkbLog) : Except String String :=
  let _ := match log.status with
    | FromCkbLogStatus.UnKnow => ()
    | FromCkbLogStatus.Burned => ()
    | FromCkbLogStatus.ParseProof => ()
    | FromCkbLogStatus.WaitBlockSafe => ()
    | FromCkbLogStatus.Mint => ()
  Except.ok fromCkbOutputMsg

/-- `transfer_from_ckb` from command.rs: loads the log and runs the match. -/
def transfer_from_ckb : Except String String :=
  transfer_from_ckb_at load_from_ckb_log

/-- Modelled from the spec: transfer direction (section 3); the concrete
state-machine engine is absent from src (every step in command.rs is a TODO
stub). -/
inductive Direction
  | SourceToDest
  | DestToSource
  deriving DecidableEq, Repr

/-- Modelled from the spec: direction-specific transfer statuses of
sections 4.3 and 4.4 together with the explicit terminal states Completed
and Failed of section 3; absent from src. -/
inductive Status
  | Initial
  | Approved
  | Locked
  | ProofReady
  | SafeToMint
  | Burned
  | SafeToRelease
  | Completed
  | Failed
  deriving DecidableEq, Repr

/-- Modelled from the spec: the TransferRecord of section 3; absent from src. -/
structure TransferRecord where
  id : Nat
  direction : Direction
  status : Status
  source_tx_hash : Option String
  dest_tx_hash : Option String
  proof : Option String
  amount : Nat
  source_address : String
  dest_address : String
  last_error : Option String
  updated_at : Nat
  deriving DecidableEq, Repr

/-- Modelled from the spec: observable adapter interactions, used to state
the at-most-one-broadcast properties of sections 4.5 and 8. -/
inductive BridgeEvent
  | approveBroadcast
  | lockBroadcast
  | mintBroadcast
  | burnBroadcast
  | releaseBroadcast
  | queryTx (h : String)
  deriving DecidableEq, Repr

/-- A broadcast event actually submits a transaction; a query does not. -/
def BridgeEvent.isBroadcast : BridgeEvent → Bool
  | BridgeEvent.queryTx _ => false
  | _ => true

/-- Modelled from the spec: outcome of the single adapter interaction an
advance call performs, per the error taxonomy of section 7; absent from src. -/
inductive CallOutcome
  | success (payload : String)
  | notYetReady
  | transient (msg : String)
  | proofRejected (msg : String)
  deriving DecidableEq, Repr

/-- Modelled from the spec: error classification the engine reports to the
caller (section 4.2, steps 6 and 7). -/
inductive EngineError
  | retryable (msg : String)
  | notYetReady
  | fatal (msg : String)
  deriving DecidableEq, Repr

/-- Which transaction-hash field of the record an action writes, if any. -/
inductive HashSlot
  | noSlot
  | srcSlot
  | dstSlot
  deriving DecidableEq, Repr

/-- Modelled from the spec: one row of a direction's transition table
(sections 4.3 and 4.4): the broadcast event it emits if it broadcasts, the
hash field that broadcast fills, whether the step extracts the proof, and
the successor status. -/
structure ActionSpec where
  bevent : Option BridgeEvent
  slot : HashSlot
  setsProof : Bool
  next : Status
  deriving DecidableEq, Repr

/-- Modelled from the spec: the per-direction transition tables of
sections 4.3 (approve, lock, extract proof, wait block-safe, mint) and 4.4
(burn, extract proof, wait block-safe, release); absent from src. -/
def actionOf : Direction → Status → Option ActionSpec
  | Direction.SourceToDest, Status.Initial =>
      some ⟨some BridgeEvent.approveBroadcast, HashSlot.noSlot, false, Status.Approved⟩
  | Direction.SourceToDest, Status.Approved =>
      some ⟨some BridgeEvent.lockBroadcast, HashSlot.srcSlot, false, Status.Locked⟩
  | Direction.SourceToDest, Status.Locked =>
      some ⟨none, HashSlot.noSlot, true, Status.ProofReady⟩
  | Direction.SourceToDest, Status.ProofReady =>
      some ⟨none, HashSlot.noSlot, false, Status.SafeToMint⟩
  | Direction.SourceToDest, Status.SafeToMint =>
      some ⟨some BridgeEvent.mintBroadcast, HashSlot.dstSlot, false, Status.Completed⟩
  | Direction.DestToSource, Status.Initial =>
      some ⟨some BridgeEvent.burnBroadcast, HashSlot.dstSlot, false, Status.Burned⟩
  | Direction.DestToSource, Status.Burned =>
      some ⟨none, HashSlot.noSlot, true, Status.ProofReady⟩
  | Direction.DestToSource, Status.ProofReady =>
      some ⟨none, HashSlot.noSlot, false, Status.SafeToRelease⟩
  | Direction.DestToSource, Status.SafeToRelease =>
      some ⟨some BridgeEvent.releaseBroadcast, HashSlot.srcSlot, false, Status.Completed⟩
  | _, _ => none

/-- Read the hash field an action's slot refers to. -/
def getSlot : HashSlot → TransferRecord → Option String
  | HashSlot.noSlot, _ => none
  | HashSlot.srcSlot, r => r.source_tx_hash
  | HashSlot.dstSlot, r => r.dest_tx_hash

/-- Write the hash field an action's slot refers to. -/
def setSlot : HashSlot → String → TransferRecord → TransferRecord
  | HashSlot.noSlot, _, r => r
  | HashSlot.srcSlot, h, r => { r with source_tx_hash := some h }
  | HashSlot.dstSlot, h, r => { r with dest_tx_hash := some h }

/-- Completed and Failed are the terminal statuses (section 3). -/
def Status.isTerminal : Status → Bool
  | Status.Completed => true
  | Status.Failed => true
  | _ => false

/-- Modelled from the spec: the record produced by a successful step
(section 4.2 step 4 and section 3): status advances, a fresh broadcast fills
its hash slot, a proof-extraction step fills `proof`, `last_error` is
cleared, `updated_at` bumps. -/
def applySuccess (a : ActionSpec) (p : String) (r : TransferRecord) : TransferRecord :=
  let r1 := if a.bevent.isSome then setSlot a.slot p r else r
  let r2 := if a.setsProof then { r1 with proof := some p } else r1
  { r2 with status := a.next, last_error := none, updated_at := r.updated_at + 1 }

/-- Result of one engine step: the new record, the adapter interactions it
performed, the error it reports, and whether it persists the record. -/
structure StepOut where
  record : TransferRecord
  events : List BridgeEvent
  error : Option EngineError
  wrote : Bool
  deriving DecidableEq, Repr

/-- Modelled from the spec: execute the action bound to the current state
(section 4.2 steps 4-7 with the re-entry rule of section 4.3): if the
action broadcasts and its hash slot is already set, query the existing
transaction instead of broadcasting; otherwise attempt the action, and
classify the outcome per section 7 (NotYetReady leaves the record untouched,
a transient error records `last_error` in place, ProofRejected is fatal and
moves the record to Failed). -/
def runAction (a : ActionSpec) (o : CallOutcome) (r : TransferRecord) : StepOut :=
  match a.bevent, getSlot a.slot r with
  | some _, some h =>
    match o with
    | CallOutcome.success _ =>
        ⟨{ r with status := a.next, last_error := none, updated_at := r.updated_at + 1 },
          [BridgeEvent.queryTx h], none, true⟩
    | CallOutcome.notYetReady =>
        ⟨r, [BridgeEvent.queryTx h], some EngineError.notYetReady, false⟩
    | CallOutcome.transient m =>
        ⟨{ r with last_error := some m, updated_at := r.updated_at + 1 },
          [BridgeEvent.queryTx h], some (EngineError.retryable m), true⟩
    | CallOutcome.proofRejected m =>
        ⟨{ r with status := Status.Failed, last_error := some m, updated_at := r.updated_at + 1 },
          [BridgeEvent.queryTx h], some (EngineError.fatal m), true⟩
  | be, _ =>
    match o with
    | CallOutcome.success p =>
        ⟨applySuccess a p r, (match be with | some e => [e] | none => []), none, true⟩
    | CallOutcome.notYetReady =>
        ⟨r, [], some EngineError.notYetReady, false⟩
    | CallOutcome.transient m =>
        ⟨{ r with last_error := some m, updated_at := r.updated_at + 1 },
          [], some (EngineError.retryable m), true⟩
    | CallOutcome.proofRejected m =>
        ⟨{ r with status := Status.Failed, last_error := some m, updated_at := r.updated_at + 1 },
          [], some (EngineError.fatal m), true⟩

/-- Modelled from the spec: one advance step at the record level
(section 4.2): terminal records are returned unchanged with no adapter call
and no store write; otherwise the action bound to (direction, status) runs. -/
def advanceRecord (o : CallOutcome) (r : TransferRecord) : StepOut :=
  if r.status.isTerminal then ⟨r, [], none, false⟩
  else
    match actionOf r.direction r.status with
    | none => ⟨r, [], none, false⟩
    | some a => runAction a o r

/-- Run a sequence of advance calls, collecting the final record and every
adapter interaction along the way. -/
def runTrace : List CallOutcome → TransferRecord → TransferRecord × List BridgeEvent
  | [], r => (r, [])
  | o :: os, r =>
    let st := advanceRecord o r
    let rest := runTrace os st.record
    (rest.1, st.events ++ rest.2)

/-- The statuses visited by a sequence of advance calls, starting status
included. -/
def statusTrace : List CallOutcome → TransferRecord → List Status
  | [], r => [r.status]
  | o :: os, r => r.status :: statusTrace os (advanceRecord o r).record

/-- Modelled from the spec: error of the Transfer Log Store (section 4.1). -/
inductive StoreError
  | ioFailure
  deriving DecidableEq, Repr

/-- Modelled from the spec: the Transfer Log Store of section 4.1, a keyed
record store; absent from src (load_to_ckb_log is a constant stub). -/
abbrev Store := Nat → Option TransferRecord

/-- Modelled from the spec: the fresh Initial record created on first
invocation of a transfer command (section 3, Lifecycle). -/
def freshRecord (id : Nat) (dir : Direction) (amt : Nat) (sa da : String) : TransferRecord :=
  ⟨id, dir, Status.Initial, none, none, none, amt, sa, da, none, 0⟩

/-- Modelled from the spec: `get(id)` of section 4.1, returning a fresh
Initial record when the id is absent. -/
def Store.get (s : Store) (id : Nat) (dir : Direction) (amt : Nat) (sa da : String) :
    TransferRecord :=
  match s id with
  | some r => r
  | none => freshRecord id dir amt sa da

/-- Modelled from the spec: `put(record)` of section 4.1, an all-or-nothing
write: on success the store maps the record's id to the record, on I/O
failure it reports StoreError and the store is left exactly as it was. -/
def Store.putResult (s : Store) (r : TransferRecord) (ioOk : Bool) :
    Store × Option StoreError :=
  if ioOk then (fun i => if i = r.id then some r else s i, none)
  else (s, some StoreError.ioFailure)

/-- The message the engine reports when the store write fails. -/
def storeFailMsg : String :=
  "store write failed"

/-- Persist an engine step into the store when it asks for a write
(section 4.2 step 5 and the Store I/O failure rule of section 7: on a
failed write the record stays in its last-known-good state). -/
def applyWrite (s : Store) (old : TransferRecord) (st : StepOut) (ioOk : Bool) :
    Store × TransferRecord × List BridgeEvent × Option EngineError :=
  if st.wrote then
    match Store.putResult s st.record ioOk with
    | (s2, none) => (s2, st.record, st.events, st.error)
    | (s2, some _) => (s2, old, st.events, some (EngineError.fatal storeFailMsg))
  else (s, st.record, st.events, st.error)

/-- Modelled from the spec: `advance(id)` of section 4.2 at the store level:
load the record, step it, persist when the step wrote. -/
def advanceStore (o : CallOutcome) (ioOk : Bool) (s : Store) (id : Nat) (dir : Direction)
    (amt : Nat) (sa da : String) :
    Store × TransferRecord × List BridgeEvent × Option EngineError :=
  applyWrite s (Store.get s id dir amt sa da)
    (advanceRecord o (Store.get s id dir amt sa da)) ioOk

/-- Rank of a status in its direction's transition graph, used to state that
advance never regresses; Failed ranks above everything as the explicit abort
terminal. -/
def rank : Direction → Status → Nat
  | Direction.SourceToDest, Status.Initial => 0
  | Direction.SourceToDest, Status.Approved => 1
  | Direction.SourceToDest, Status.Locked => 2
  | Direction.SourceToDest, Status.ProofReady => 3
  | Direction.SourceToDest, Status.SafeToMint => 4
  | Direction.SourceToDest, Status.Completed => 5
  | Direction.SourceToDest, Status.Failed => 6
  | Direction.DestToSource, Status.Initial => 0
  | Direction.DestToSource, Status.Burned => 1
  | Direction.DestToSource, Status.ProofReady => 2
  | Direction.DestToSource, Status.SafeToRelease => 3
  | Direction.DestToSource, Status.Completed => 4
  | Direction.DestToSource, Status.Failed => 5
  | _, _ => 0

/-- C9: for every input state, transfer_to_ckb and transfer_from_ckb return
Ok with their fixed success messages; neither ever returns an Err, whatever
the loaded log's status is. -/
theorem transfer_commands_always_ok :
    (∀ log : ToCkbLog, transfer_to_ckb_at log = Except.ok toCkbOutputMsg) ∧
    (∀ log : FromCkbLog, transfer_from_ckb_at log = Except.ok fromCkbOutputMsg) ∧
    transfer_to_ckb = Except.ok toCkbOutputMsg ∧
    transfer_from_ckb = Except.ok fromCkbOutputMsg ∧
    toCkbOutputMsg = "finished to transfer erc20 to ckb." ∧
    fromCkbOutputMsg = "finished to transfer erc20 from ckb." :=
  ⟨fun _ => rfl, fun _ => rfl, rfl, rfl, rfl, rfl⟩

/-- C10: load_to_ckb_log and load_from_ckb_log are constants that always
return a log in status UnKnow: every invocation of the transfer commands
starts from the initial state, and nothing written in one invocation is
observable in the next. -/
theorem load_log_always_unknow :
    load_to_ckb_log.status = ToCkbLogStatus.UnKnow ∧
    load_from_ckb_log.status = FromCkbLogStatus.UnKnow ∧
    load_to_ckb_log = { status := ToCkbLogStatus.UnKnow } ∧
    load_from_ckb_log = { status := FromCkbLogStatus.UnKnow } :=
  ⟨rfl, rfl, rfl, rfl⟩

/-- C1: a new Source→Destination transfer with always-succeeding adapters
passes through Initial→Approved→Locked→ProofReady→SafeToMint→Completed in
exactly five advance calls (one per table state), broadcasts exactly the
approve, lock and mint transactions once each in order, and ends with
source_tx_hash, dest_tx_hash and proof all set. -/
theorem toCkb_progress_scenarioA (id amt : Nat) (sa da p1 p2 p3 p4 p5 : String) :
    statusTrace
        [CallOutcome.success p1, CallOutcome.success p2, CallOutcome.success p3,
          CallOutcome.success p4, CallOutcome.success p5]
        (freshRecord id Direction.SourceToDest amt sa da) =
      [Status.Initial, Status.Approved, Status.Locked, Status.ProofReady,
        Status.SafeToMint, Status.Completed] ∧
    (runTrace
        [CallOutcome.success p1, CallOutcome.success p2, CallOutcome.success p3,
          CallOutcome.success p4, CallOutcome.success p5]
        (freshRecord id Direction.SourceToDest amt sa da)).2 =
      [BridgeEvent.approveBroadcast, BridgeEvent.lockBroadcast, BridgeEvent.mintBroadcast] ∧
    (runTrace
        [CallOutcome.success p1, CallOutcome.success p2, CallOutcome.success p3,
          CallOutcome.success p4, CallOutcome.success p5]
        (freshRecord id Direction.SourceToDest amt sa da)).1.source_tx_hash = some p2 ∧
    (runTrace
        [CallOutcome.success p1, CallOutcome.success p2, CallOutcome.success p3,
          CallOutcome.success p4, CallOutcome.success p5]
        (freshRecord id Direction.SourceToDest amt sa da)).1.dest_tx_hash = some p5 ∧
    (runTrace
        [CallOutcome.success p1, CallOutcome.success p2, CallOutcome.success p3,
          CallOutcome.success p4, CallOutcome.success p5]
        (freshRecord id Direction.SourceToDest amt sa da)).1.proof = some p3 :=
  ⟨rfl, rfl, rfl, rfl, rfl⟩

/-- C8: a Destination→Source transfer with always-succeeding adapters passes
through exactly Initial→Burned→ProofReady→SafeToRelease→Completed in four
advance calls, and its only broadcasts are the initial burn on the
destination chain followed by the release — no approve step occurs. -/
theorem fromCkb_progress (id amt : Nat) (sa da q1 q2 q3 q4 : String) :
    statusTrace
        [CallOutcome.success q1, CallOutcome.success q2, CallOutcome.success q3,
          CallOutcome.success q4]
        (freshRecord id Direction.DestToSource amt sa da) =
      [Status.Initial, Status.Burned, Status.ProofReady, Status.SafeToRelease,
        Status.Completed] ∧
    (runTrace
        [CallOutcome.success q1, CallOutcome.success q2, CallOutcome.success q3,
          CallOutcome.success q4]
        (freshRecord id Direction.DestToSource amt sa da)).2 =
      [BridgeEvent.burnBroadcast, BridgeEvent.releaseBroadcast] ∧
    (runTrace
        [CallOutcome.success q1, CallOutcome.success q2, CallOutcome.success q3,
          CallOutcome.success q4]
        (freshRecord id Direction.DestToSource amt sa da)).1.dest_tx_hash = some q1 ∧
    (runTrace
        [CallOutcome.success q1, CallOutcome.success q2, CallOutcome.success q3,
          CallOutcome.success q4]
        (freshRecord id Direction.DestToSource amt sa da)).1.source_tx_hash = some q4 :=
  ⟨rfl, rfl, rfl, rfl⟩

lemma applySuccess_status (a : ActionSpec) (p : String) (r : TransferRecord) :
    (applySuccess a p r).status = a.next := rfl

lemma terminal_noop (o : CallOutcome) (r : TransferRecord)
    (h : r.status.isTerminal = true) : advanceRecord o r = ⟨r, [], none, false⟩ := by
  unfold advanceRecord
  simp [h]

lemma setSlot_direction (sl : HashSlot) (p : String) (r : TransferRecord) :
    (setSlot sl p r).direction = r.direction := by
  cases sl <;> rfl

lemma applySuccess_direction (a : ActionSpec) (p : String) (r : TransferRecord) :
    (applySuccess a p r).direction = r.direction := by
  unfold applySuccess
  by_cases h1 : a.bevent.isSome <;> by_cases h2 : a.setsProof <;>
    simp [h1, h2, setSlot_direction]

lemma advance_direction (o : CallOutcome) (r : TransferRecord) :
    (advanceRecord o r).record.direction = r.direction := by
  unfold advanceRecord runAction
  cases hT : r.status.isTerminal with
  | true => simp [hT]
  | false =>
    cases hA : actionOf r.direction r.status with
    | none => simp [hT, hA]
    | some a =>
      cases hbe : a.bevent with
      | none => cases o <;> simp [hT, hA, hbe, applySuccess_direction]
      | some e0 =>
        cases hgs : getSlot a.slot r with
        | none => cases o <;> simp [hT, hA, hbe, hgs, applySuccess_direction]
        | some h0 => cases o <;> simp [hT, hA, hbe, hgs]

lemma actionOf_rank_lt (d : Direction) (s : Status) (a : ActionSpec)
    (h : actionOf d s = some a) : rank d s < rank d a.next := by
  cases d <;> cases s <;> simp only [actionOf] at h <;>
    first
      | exact Option.noConfusion h
      | (injection h with h2; subst h2; decide)

lemma rank_le_failed (d : Direction) (s : Status) : rank d s ≤ rank d Status.Failed := by
  cases d <;> cases s <;> simp [rank]

lemma advance_status_cases (o : CallOutcome) (r : TransferRecord) :
    (advanceRecord o r).record.status = r.status ∨
    (∃ a, actionOf r.direction r.status = some a ∧
      (advanceRecord o r).record.status = a.next) ∨
    ((advanceRecord o r).record.status = Status.Failed ∧
      ∃ m, (advanceRecord o r).error = some (EngineError.fatal m)) := by
  unfold advanceRecord runAction
  cases hT : r.status.isTerminal with
  | true => exact Or.inl (by simp [hT])
  | false =>
    cases hA : actionOf r.direction r.status with
    | none => exact Or.inl (by simp [hT, hA])
    | some a =>
      cases hbe : a.bevent with
      | none =>
        cases o with
        | success p =>
          exact Or.inr (Or.inl ⟨a, rfl, by simp [hT, hA, hbe, applySuccess_status]⟩)
        | notYetReady => exact Or.inl (by simp [hT, hA, hbe])
        | transient m => exact Or.inl (by simp [hT, hA, hbe])
        | proofRejected m =>
          exact Or.inr (Or.inr ⟨by simp [hT, hA, hbe], m, by simp [hT, hA, hbe]⟩)
      | some e0 =>
        cases hgs : getSlot a.slot r with
        | none =>
          cases o with
          | success p =>
            exact Or.inr (Or.inl ⟨a, rfl, by simp [hT, hA, hbe, hgs, applySuccess_status]⟩)
          | notYetReady => exact Or.inl (by simp [hT, hA, hbe, hgs])
          | transient m => exact Or.inl (by simp [hT, hA, hbe, hgs])
          | proofRejected m =>
            exact Or.inr (Or.inr ⟨by simp [hT, hA, hbe, hgs], m, by simp [hT, hA, hbe, hgs]⟩)
        | some h0 =>
          cases o with
          | success p =>
            exact Or.inr (Or.inl ⟨a, rfl, by simp [hT, hA, hbe, hgs]⟩)
          | notYetReady => exact Or.inl (by simp [hT, hA, hbe, hgs])
          | transient m => exact Or.inl (by simp [hT, hA, hbe, hgs])
          | proofRejected m =>
            exact Or.inr (Or.inr ⟨by simp [hT, hA, hbe, hgs], m, by simp [hT, hA, hbe, hgs]⟩)

lemma advance_rank_mono (o : CallOutcome) (r : TransferRecord) :
    rank r.direction r.status ≤ rank r.direction (advanceRecord o r).record.status := by
  rcases advance_status_cases o r with h | ⟨a, hA, h⟩ | ⟨h, _⟩
  · rw [h]
  · rw [h]; exact Nat.le_of_lt (actionOf_rank_lt _ _ _ hA)
  · rw [h]; exact rank_le_failed _ _

lemma runTrace_cons_fst (o : CallOutcome) (os : List CallOutcome) (r : TransferRecord) :
    (runTrace (o :: os) r).1 = (runTrace os (advanceRecord o r).record).1 := rfl

lemma trace_direction (outs : List CallOutcome) (r : TransferRecord) :
    (runTrace outs r).1.direction = r.direction := by
  induction outs generalizing r with
  | nil => rfl
  | cons o os ih =>
    rw [runTrace_cons_fst, ih]
    exact advance_direction o r

lemma trace_rank_mono (outs : List CallOutcome) (r : TransferRecord) :
    rank r.direction r.status ≤ rank r.direction (runTrace outs r).1.status := by
  induction outs generalizing r with
  | nil => exact Nat.le_refl _
  | cons o os ih =>
    rw [runTrace_cons_fst]
    refine Nat.le_trans (advance_rank_mono o r) ?_
    have h2 := ih (advanceRecord o r).record
    rw [advance_direction o r] at h2
    exact h2

/-- C3: each advance step either leaves the status unchanged, follows the
direction's transition table, or is the explicit fatal abort to Failed; and
along any sequence of advance calls the status rank in the direction's
transition graph never decreases. -/
theorem status_never_regresses :
    (∀ (o : CallOutcome) (r : TransferRecord),
      (advanceRecord o r).record.status = r.status ∨
      (∃ a, actionOf r.direction r.status = some a ∧
        (advanceRecord o r).record.status = a.next) ∨
      ((advanceRecord o r).record.status = Status.Failed ∧
        ∃ m, (advanceRecord o r).error = some (EngineError.fatal m))) ∧
    (∀ (outs : List CallOutcome) (r : TransferRecord),
      rank r.direction r.status ≤ rank r.direction (runTrace outs r).1.status) :=
  ⟨advance_status_cases, trace_rank_mono⟩

lemma runTrace_cons (o : CallOutcome) (os : List CallOutcome) (r : TransferRecord) :
    runTrace (o :: os) r =
      ((runTrace os (advanceRecord o r).record).1,
        (advanceRecord o r).events ++ (runTrace os (advanceRecord o r).record).2) := rfl

def addrSrc : String :=
  "0xsource-address"

def addrDst : String :=
  "ckb-dest-address"

def hashA : String :=
  "lock-tx-hash"

def proofA : String :=
  "spv-proof-blob"

def errA : String :=
  "proof rejected on chain"

def freshToCkb : TransferRecord :=
  freshRecord 1 Direction.SourceToDest 100 addrSrc addrDst

def lockedRec : TransferRecord :=
  { freshToCkb with status := Status.Locked, source_tx_hash := some hashA }

def safeToMintRec : TransferRecord :=
  { freshToCkb with
    status := Status.SafeToMint, source_tx_hash := some hashA, proof := some proofA }

def completedRec : TransferRecord :=
  { freshToCkb with status := Status.Completed }

def storeWithCompleted : Store :=
  fun i => if i = 1 then some completedRec else none

/-- C2: advance on a record whose status is terminal (Completed or Failed) is
a complete no-op: the store is returned unchanged (no write), the record is
returned unchanged, no adapter interaction happens and no error is
reported. -/
theorem advance_terminal_is_noop (o : CallOutcome) (ioOk : Bool) (s : Store) (id : Nat)
    (dir : Direction) (amt : Nat) (sa da : String)
    (h : (Store.get s id dir amt sa da).status = Status.Completed ∨
      (Store.get s id dir amt sa da).status = Status.Failed) :
    advanceStore o ioOk s id dir amt sa da = (s, Store.get s id dir amt sa da, [], none) := by
  have hT : (Store.get s id dir amt sa da).status.isTerminal = true := by
    rcases h with h | h <;> rw [h] <;> rfl
  unfold advanceStore
  rw [terminal_noop o _ hT]
  rfl

/-- Witness for C2 at a store holding a Completed record under id 1. -/
theorem advance_terminal_is_noop_witness :
    advanceStore (CallOutcome.success proofA) true storeWithCompleted 1
        Direction.SourceToDest 100 addrSrc addrDst =
      (storeWithCompleted,
        Store.get storeWithCompleted 1 Direction.SourceToDest 100 addrSrc addrDst,
        [], none) :=
  advance_terminal_is_noop _ _ _ _ _ _ _ _ (Or.inl rfl)

/-- C4: ProofRejected while advancing a SafeToMint Source→Destination record
moves the record to Failed with last_error set, reports the fatal error to
the caller, and every subsequent advance call is a complete no-op (no
automatic retry of the verification). -/
theorem proof_rejected_goes_failed (r : TransferRecord) (m : String)
    (hd : r.direction = Direction.SourceToDest) (hs : r.status = Status.SafeToMint) :
    (advanceRecord (CallOutcome.proofRejected m) r).record.status = Status.Failed ∧
    (advanceRecord (CallOutcome.proofRejected m) r).record.last_error = some m ∧
    (advanceRecord (CallOutcome.proofRejected m) r).error = some (EngineError.fatal m) ∧
    ∀ o2 : CallOutcome,
      advanceRecord o2 (advanceRecord (CallOutcome.proofRejected m) r).record =
        ⟨(advanceRecord (CallOutcome.proofRejected m) r).record, [], none, false⟩ := by
  have hT : r.status.isTerminal = false := by rw [hs]; rfl
  have hA : actionOf r.direction r.status =
      some ⟨some BridgeEvent.mintBroadcast, HashSlot.dstSlot, false, Status.Completed⟩ := by
    rw [hd, hs]; rfl
  have hst : (advanceRecord (CallOutcome.proofRejected m) r).record.status = Status.Failed := by
    unfold advanceRecord runAction
    cases hdst : r.dest_tx_hash <;> simp [hT, hA, getSlot, hdst]
  have hle : (advanceRecord (CallOutcome.proofRejected m) r).record.last_error = some m := by
    unfold advanceRecord runAction
    cases hdst : r.dest_tx_hash <;> simp [hT, hA, getSlot, hdst]
  have herr : (advanceRecord (CallOutcome.proofRejected m) r).error =
      some (EngineError.fatal m) := by
    unfold advanceRecord runAction
    cases hdst : r.dest_tx_hash <;> simp [hT, hA, getSlot, hdst]
  exact ⟨hst, hle, herr, fun o2 => terminal_noop o2 _ (by rw [hst]; rfl)⟩

/-- Witness for C4 at a concrete SafeToMint record. -/
theorem proof_rejected_goes_failed_witness :
    (advanceRecord (CallOutcome.proofRejected errA) safeToMintRec).record.status =
        Status.Failed ∧
    (advanceRecord (CallOutcome.proofRejected errA) safeToMintRec).record.last_error =
        some errA ∧
    (advanceRecord (CallOutcome.proofRejected errA) safeToMintRec).error =
        some (EngineError.fatal errA) ∧
    ∀ o2 : CallOutcome,
      advanceRecord o2 (advanceRecord (CallOutcome.proofRejected errA) safeToMintRec).record =
        ⟨(advanceRecord (CallOutcome.proofRejected errA) safeToMintRec).record,
          [], none, false⟩ :=
  proof_rejected_goes_failed safeToMintRec errA rfl rfl

/-- C5: a NotYetReady confirmation check on a Locked Source→Destination
record leaves the record completely unchanged (so last_error stays unset),
for any number of consecutive NotYetReady results, the engine reporting the
retryable not-yet-ready indication; the first subsequent successful check
advances the record to ProofReady with the extracted proof stored and
last_error clear. -/
theorem not_yet_ready_stays_locked (r : TransferRecord) (n : Nat) (p : String)
    (hd : r.direction = Direction.SourceToDest) (hs : r.status = Status.Locked) :
    runTrace (List.replicate n CallOutcome.notYetReady) r = (r, []) ∧
    advanceRecord CallOutcome.notYetReady r = ⟨r, [], some EngineError.notYetReady, false⟩ ∧
    (advanceRecord (CallOutcome.success p) r).record.status = Status.ProofReady ∧
    (advanceRecord (CallOutcome.success p) r).record.last_error = none ∧
    (advanceRecord (CallOutcome.success p) r).record.proof = some p := by
  have hT : r.status.isTerminal = false := by rw [hs]; rfl
  have hA : actionOf r.direction r.status =
      some ⟨none, HashSlot.noSlot, true, Status.ProofReady⟩ := by
    rw [hd, hs]; rfl
  have hstep : advanceRecord CallOutcome.notYetReady r =
      ⟨r, [], some EngineError.notYetReady, false⟩ := by
    unfold advanceRecord runAction
    simp [hT, hA, getSlot]
  have hsucc : advanceRecord (CallOutcome.success p) r =
      ⟨applySuccess ⟨none, HashSlot.noSlot, true, Status.ProofReady⟩ p r, [], none, true⟩ := by
    unfold advanceRecord runAction
    simp [hT, hA, getSlot]
  have htrace : runTrace (List.replicate n CallOutcome.notYetReady) r = (r, []) := by
    induction n with
    | zero => rfl
    | succ k ih =>
      rw [List.replicate_succ, runTrace_cons, hstep]
      simpa using ih
  refine ⟨htrace, hstep, ?_, ?_, ?_⟩ <;> rw [hsucc] <;> rfl

/-- Witness for C5 at a concrete Locked record, two NotYetReady rounds. -/
theorem not_yet_ready_stays_locked_witness :
    runTrace (List.replicate 2 CallOutcome.notYetReady) lockedRec = (lockedRec, []) ∧
    advanceRecord CallOutcome.notYetReady lockedRec =
      ⟨lockedRec, [], some EngineError.notYetReady, false⟩ ∧
    (advanceRecord (CallOutcome.success proofA) lockedRec).record.status =
      Status.ProofReady ∧
    (advanceRecord (CallOutcome.success proofA) lockedRec).record.last_error = none ∧
    (advanceRecord (CallOutcome.success proofA) lockedRec).record.proof = some proofA :=
  not_yet_ready_stays_locked lockedRec 2 proofA rfl rfl

lemma applySuccess_source (a : ActionSpec) (p : String) (r : TransferRecord) :
    (applySuccess a p r).source_tx_hash =
      (if a.bevent.isSome then setSlot a.slot p r else r).source_tx_hash := by
  unfold applySuccess
  cases hsp : a.setsProof <;> simp [hsp]

lemma applySuccess_dest (a : ActionSpec) (p : String) (r : TransferRecord) :
    (applySuccess a p r).dest_tx_hash =
      (if a.bevent.isSome then setSlot a.slot p r else r).dest_tx_hash := by
  unfold applySuccess
  cases hsp : a.setsProof <;> simp [hsp]

lemma advance_src_preserved (o : CallOutcome) (r : TransferRecord) (h : String)
    (hh : r.source_tx_hash = some h) :
    (advanceRecord o r).record.source_tx_hash = some h := by
  unfold advanceRecord runAction
  cases hT : r.status.isTerminal with
  | true => simpa [hT] using hh
  | false =>
    cases hA : actionOf r.direction r.status with
    | none => simpa [hT, hA] using hh
    | some a =>
      obtain ⟨be, sl, sp, nx⟩ := a
      cases be with
      | none =>
        cases o <;>
          simp [hT, hA, applySuccess_source, setSlot, hh]
      | some e0 =>
        cases sl with
        | noSlot =>
          cases o <;>
            simp [hT, hA, getSlot, applySuccess_source, setSlot, hh]
        | srcSlot =>
          cases o <;>
            simp [hT, hA, getSlot, hh]
        | dstSlot =>
          cases hdst : r.dest_tx_hash with
          | none =>
            cases o <;>
              simp [hT, hA, getSlot, hdst, applySuccess_source, setSlot, hh]
          | some h0 =>
            cases o <;>
              simp [hT, hA, getSlot, hdst, hh]

lemma advance_dst_preserved (o : CallOutcome) (r : TransferRecord) (h : String)
    (hh : r.dest_tx_hash = some h) :
    (advanceRecord o r).record.dest_tx_hash = some h := by
  unfold advanceRecord runAction
  cases hT : r.status.isTerminal with
  | true => simpa [hT] using hh
  | false =>
    cases hA : actionOf r.direction r.status with
    | none => simpa [hT, hA] using hh
    | some a =>
      obtain ⟨be, sl, sp, nx⟩ := a
      cases be with
      | none =>
        cases o <;>
          simp [hT, hA, applySuccess_dest, setSlot, hh]
      | some e0 =>
        cases sl with
        | noSlot =>
          cases o <;>
            simp [hT, hA, getSlot, applySuccess_dest, setSlot, hh]
        | dstSlot =>
          cases o <;>
            simp [hT, hA, getSlot, hh]
        | srcSlot =>
          cases hsrc : r.source_tx_hash with
          | none =>
            cases o <;>
              simp [hT, hA, getSlot, hsrc, applySuccess_dest, setSlot, hh]
          | some h0 =>
            cases o <;>
              simp [hT, hA, getSlot, hsrc, hh]

lemma reentry_events (o : CallOutcome) (r : TransferRecord) (a : ActionSpec) (h : String)
    (hT : r.status.isTerminal = false) (hA : actionOf r.direction r.status = some a)
    (hbe : a.bevent.isSome = true) (hgs : getSlot a.slot r = some h) :
    (advanceRecord o r).events = [BridgeEvent.queryTx h] := by
  unfold advanceRecord runAction
  cases hbe2 : a.bevent with
  | none => rw [hbe2] at hbe; simp at hbe
  | some e0 => cases o <;> simp [hT, hA, hbe2, hgs]

lemma emit_char (e : BridgeEvent) (o : CallOutcome) (r : TransferRecord)
    (hb : e.isBroadcast = true) (he : e ∈ (advanceRecord o r).events) :
    ∃ a, actionOf r.direction r.status = some a ∧ a.bevent = some e ∧
      (advanceRecord o r).events = [e] ∧
      (advanceRecord o r).record.status = a.next := by
  cases hT : r.status.isTerminal with
  | true =>
    rw [terminal_noop o r hT] at he
    simp at he
  | false =>
    cases hA : actionOf r.direction r.status with
    | none =>
      have hnone : advanceRecord o r = ⟨r, [], none, false⟩ := by
        unfold advanceRecord; simp [hT, hA]
      rw [hnone] at he; simp at he
    | some a =>
      cases hbe : a.bevent with
      | none =>
        have hev : (advanceRecord o r).events = [] := by
          unfold advanceRecord runAction
          cases o <;> simp [hT, hA, hbe]
        rw [hev] at he; simp at he
      | some e0 =>
        cases hgs : getSlot a.slot r with
        | some h0 =>
          have hev := reentry_events o r a h0 hT hA (by rw [hbe]; rfl) hgs
          rw [hev] at he
          simp at he
          subst he
          simp [BridgeEvent.isBroadcast] at hb
        | none =>
          cases o with
          | success p =>
            have hadv : advanceRecord (CallOutcome.success p) r =
                ⟨applySuccess a p r, [e0], none, true⟩ := by
              unfold advanceRecord runAction
              simp [hT, hA, hbe, hgs]
            rw [hadv] at he
            simp at he
            subst he
            exact ⟨a, rfl, hbe, by rw [hadv], by rw [hadv]; exact applySuccess_status a p r⟩
          | notYetReady =>
            have hev : (advanceRecord CallOutcome.notYetReady r).events = [] := by
              unfold advanceRecord runAction; simp [hT, hA, hbe, hgs]
            rw [hev] at he; simp at he
          | transient m =>
            have hev : (advanceRecord (CallOutcome.transient m) r).events = [] := by
              unfold advanceRecord runAction; simp [hT, hA, hbe, hgs]
            rw [hev] at he; simp at he
          | proofRejected m =>
            have hev : (advanceRecord (CallOutcome.proofRejected m) r).events = [] := by
              unfold advanceRecord runAction; simp [hT, hA, hbe, hgs]
            rw [hev] at he; simp at he

lemma bevent_unique (e : BridgeEvent) (d : Direction) (s s2 : Status)
    (a a2 : ActionSpec)
    (h1 : actionOf d s = some a) (h2 : actionOf d s2 = some a2)
    (hb1 : a.bevent = some e) (hb2 : a2.bevent = some e) : s = s2 := by
  cases d <;> cases s <;> cases s2 <;>
    simp only [actionOf] at h1 h2 <;>
    first
      | rfl
      | exact Option.noConfusion h1
      | exact Option.noConfusion h2
      | (injection h1 with h1e; injection h2 with h2e; subst h1e; subst h2e;
         exact Option.noConfusion hb1)
      | (injection h1 with h1e; injection h2 with h2e; subst h1e; subst h2e;
         exact Option.noConfusion hb2)
      | (injection h1 with h1e; injection h2 with h2e; subst h1e; subst h2e;
         injection hb1 with e1; injection hb2 with e2; subst e1;
         exact absurd e2 (by decide))

lemma no_emit_of_rank (e : BridgeEvent) (hb : e.isBroadcast = true) :
    ∀ (outs : List CallOutcome) (r : TransferRecord),
      (∀ s2 a2, actionOf r.direction s2 = some a2 → a2.bevent = some e →
        rank r.direction s2 < rank r.direction r.status) →
      e ∉ (runTrace outs r).2 := by
  intro outs
  induction outs with
  | nil =>
    intro r _
    simp [runTrace]
  | cons o os ih =>
    intro r hhigh
    rw [runTrace_cons]
    intro hmem
    rcases List.mem_append.mp hmem with hmem1 | hmem2
    · obtain ⟨a, hA, hbe, _, _⟩ := emit_char e o r hb hmem1
      exact absurd (hhigh r.status a hA hbe) (Nat.lt_irrefl _)
    · refine ih (advanceRecord o r).record ?_ hmem2
      intro s2 a2 hA2 hbe2
      rw [advance_direction o r] at hA2 ⊢
      exact Nat.lt_of_lt_of_le (hhigh s2 a2 hA2 hbe2) (advance_rank_mono o r)

lemma broadcast_count_le_one (e : BridgeEvent) (hb : e.isBroadcast = true) :
    ∀ (outs : List CallOutcome) (r : TransferRecord),
      List.count e (runTrace outs r).2 ≤ 1 := by
  intro outs
  induction outs with
  | nil =>
    intro r
    simp [runTrace]
  | cons o os ih =>
    intro r
    rw [runTrace_cons, List.count_append]
    by_cases hmem : e ∈ (advanceRecord o r).events
    · obtain ⟨a, hA, hbe, hev, hst⟩ := emit_char e o r hb hmem
      have hrest : e ∉ (runTrace os (advanceRecord o r).record).2 := by
        apply no_emit_of_rank e hb os
        intro s2 a2 hA2 hbe2
        rw [advance_direction o r] at hA2 ⊢
        have hs2 : s2 = r.status :=
          bevent_unique e r.direction s2 r.status a2 a hA2 hA hbe2 hbe
        subst hs2
        rw [hst]
        exact actionOf_rank_lt r.direction r.status a hA
      rw [hev, List.count_eq_zero.mpr hrest]
      simp
    · rw [List.count_eq_zero.mpr hmem]
      simpa using ih (advanceRecord o r).record

def approvedRec : TransferRecord :=
  { freshToCkb with status := Status.Approved, source_tx_hash := some hashA }

def destSetRec : TransferRecord :=
  { freshToCkb with dest_tx_hash := some hashA }

/-- C6: a transaction hash, once set in the record, is never overwritten by
any advance step; re-entering a broadcasting state whose hash slot is
already filled queries the existing transaction instead of broadcasting; and
over any sequence of advance calls each broadcast event occurs at most
once. -/
theorem txhash_set_once :
    (∀ (o : CallOutcome) (r : TransferRecord) (h : String),
      r.source_tx_hash = some h →
        (advanceRecord o r).record.source_tx_hash = some h) ∧
    (∀ (o : CallOutcome) (r : TransferRecord) (h : String),
      r.dest_tx_hash = some h →
        (advanceRecord o r).record.dest_tx_hash = some h) ∧
    (∀ (o : CallOutcome) (r : TransferRecord) (a : ActionSpec) (h : String),
      r.status.isTerminal = false → actionOf r.direction r.status = some a →
      a.bevent.isSome = true → getSlot a.slot r = some h →
        (advanceRecord o r).events = [BridgeEvent.queryTx h]) ∧
    (∀ (e : BridgeEvent) (outs : List CallOutcome) (r : TransferRecord),
      e.isBroadcast = true → List.count e (runTrace outs r).2 ≤ 1) :=
  ⟨advance_src_preserved, advance_dst_preserved, reentry_events,
    fun e outs r hb => broadcast_count_le_one e hb outs r⟩

/-- Witness for C6: hash preservation on a Locked record, dest-hash
preservation, query-not-rebroadcast on a re-entered Approved record, and the
at-most-once lock broadcast on a full successful run. -/
theorem txhash_set_once_witness :
    (advanceRecord (CallOutcome.success proofA) lockedRec).record.source_tx_hash =
      some hashA ∧
    (advanceRecord (CallOutcome.success proofA) destSetRec).record.dest_tx_hash =
      some hashA ∧
    (advanceRecord CallOutcome.notYetReady approvedRec).events =
      [BridgeEvent.queryTx hashA] ∧
    List.count BridgeEvent.lockBroadcast
      (runTrace
        [CallOutcome.success hashA, CallOutcome.success hashA, CallOutcome.success proofA,
          CallOutcome.success proofA, CallOutcome.success hashA]
        freshToCkb).2 ≤ 1 :=
  ⟨txhash_set_once.1 (CallOutcome.success proofA) lockedRec hashA rfl,
    txhash_set_once.2.1 (CallOutcome.success proofA) destSetRec hashA rfl,
    txhash_set_once.2.2.1 CallOutcome.notYetReady approvedRec
      ⟨some BridgeEvent.lockBroadcast, HashSlot.srcSlot, false, Status.Locked⟩ hashA
      rfl rfl rfl rfl,
    txhash_set_once.2.2.2 BridgeEvent.lockBroadcast
      [CallOutcome.success hashA, CallOutcome.success hashA, CallOutcome.success proofA,
        CallOutcome.success proofA, CallOutcome.success hashA]
      freshToCkb rfl⟩

/-- C7: the Transfer Log Store returns a fresh Initial record for an absent
id, and a put under I/O failure reports StoreError while leaving the store —
hence the previously stored record for every id — completely unchanged. -/
theorem store_get_put_contract :
    (∀ (s : Store) (id : Nat) (dir : Direction) (amt : Nat) (sa da : String),
      s id = none →
        Store.get s id dir amt sa da = freshRecord id dir amt sa da ∧
        (Store.get s id dir amt sa da).status = Status.Initial) ∧
    (∀ (s : Store) (r : TransferRecord),
      Store.putResult s r false = (s, some StoreError.ioFailure)) := by
  constructor
  · intro s id dir amt sa da hnone
    unfold Store.get
    rw [hnone]
    exact ⟨rfl, rfl⟩
  · intro s r
    rfl

/-- Witness for C7 at the empty store. -/
theorem store_get_put_contract_witness :
    (Store.get (fun _ => none) 5 Direction.DestToSource 7 addrSrc addrDst).status =
      Status.Initial ∧
    Store.putResult (fun _ => none) freshToCkb false =
      ((fun _ => none), some StoreError.ioFailure) :=
  ⟨(store_get_put_contract.1 (fun _ => none) 5 Direction.DestToSource 7 addrSrc addrDst
      rfl).2,
    store_get_put_contract.2 (fun _ => none) freshToCkb⟩
